import Mathlib

/-!
Shallow embedding of the torchmultimodal repository components under
verification:

* `src/torchmultimodal/transforms/image_masking_transform.py`:
  `map_pixels` and `MaskingGenerator` (`_mask` and `__call__`).
* `src/torchmultimodal/models/mdetr.py`: `Transformer.forward` (at the level
  of tensor shapes, which is the level of the claims about it),
  `TransformerDecoder.forward` (at the level of values over an abstract
  carrier, for the intermediate-capture claims) and
  `TransformerDecoderLayer.forward` (likewise, for the normalization-ordering
  claims).

Randomness in `MaskingGenerator` is modelled by an explicit draw oracle: each
inner attempt of `_mask` consumes one candidate block `(h, w, top, left)`.
In the source, `h` and `w` are derived from `random.uniform` draws through
floating-point `sqrt`/`round` and `top`/`left` from `random.randint`; the
theorems below quantify over all oracle streams, which covers every sequence
of values those draws can produce.
-/

/-! ### Dtypes and `map_pixels` -/

/-- Tensor element dtypes as named by torch; `torch.float` is `float32`. -/
inductive DType where
  | float32
  | float64
  | float16
  | bfloat16
  | uint8
  | int8
  | int16
  | int32
  | int64
  | boolean
  deriving DecidableEq

/-- Whether a dtype is an integer dtype. -/
def DType.isInteger : DType → Bool
  | .uint8 | .int8 | .int16 | .int32 | .int64 => true
  | _ => false

/-- A tensor for the purposes of `map_pixels`: a dtype, a shape, and the
flattened element values (element arithmetic is modelled over `ℚ`). -/
structure QTensor where
  dtype : DType
  shape : List ℕ
  data : List ℚ
  deriving DecidableEq

/-- The constant `LOGIT_LAPLACE_EPS: float = 0.1` of
`image_masking_transform.py` (modelled as the rational 1/10; the claims under
verification depend only on the dtype check, not on this value). -/
def LOGIT_LAPLACE_EPS : ℚ := 1 / 10

/-- Embedding of `map_pixels` (image_masking_transform.py lines 22-26):
`if x.dtype != torch.float: raise ValueError(...)`, otherwise return
`(1 - 2 * LOGIT_LAPLACE_EPS) * x + LOGIT_LAPLACE_EPS` elementwise. -/
def map_pixels (x : QTensor) : Except String QTensor :=
  if x.dtype ≠ DType.float32 then
    .error "expected input to have type float"
  else
    .ok { x with data := x.data.map fun v => (1 - 2 * LOGIT_LAPLACE_EPS) * v + LOGIT_LAPLACE_EPS }

/-! ### MaskingGenerator

The mask grid is a `List (List ℕ)` mirroring the `np.zeros((height, width),
dtype=np.int)` array: row-major, cell values are natural numbers (the code
only ever writes the value 1 into cells that hold 0). -/

/-- Configuration of a `MaskingGenerator` after `__init__` has run:
`max_num_patches` is the resolved value (`num_masking_patches` when the
argument was `None`).  `min_num_patches` and the aspect-ratio bounds only
shape the distribution of the random block draws, which the draw oracle
abstracts, so they are carried but not otherwise consulted. -/
structure MaskingGenerator where
  height : ℕ
  width : ℕ
  numMaskingPatches : ℕ
  minNumPatches : ℕ
  maxNumPatches : ℕ

/-- One candidate rectangular block as drawn inside `_mask`: the derived
block height `h` and width `w`, and the offsets `top` and `left`. -/
structure MaskCandidate where
  h : ℕ
  w : ℕ
  top : ℕ
  left : ℕ

/-- Write pass over one row cell: `if mask[i][j] == 0: mask[i][j] = 1`. -/
def setCell (v : ℕ) : ℕ :=
  if v = 0 then 1 else v

/-- Apply the inner write loop of `_mask` to one row over the column range
`[left, left + w)`, returning the updated row together with the number of
cells that were changed from 0 to 1 (the row's contribution to `delta`). -/
def setRowDelta : List ℕ → ℕ → ℕ → List ℕ × ℕ
  | [], _, _ => ([], 0)
  | v :: vs, 0, 0 => (v :: vs, 0)
  | v :: vs, 0, w + 1 =>
    let r := setRowDelta vs 0 w
    (setCell v :: r.1, r.2 + (if v = 0 then 1 else 0))
  | v :: vs, left + 1, w =>
    let r := setRowDelta vs left w
    (v :: r.1, r.2)

/-- Apply the double write loop of `_mask` over the rows `[top, top + h)`,
returning the updated grid and the total `delta`. -/
def setBlockDelta : List (List ℕ) → ℕ → ℕ → ℕ → ℕ → List (List ℕ) × ℕ
  | [], _, _, _, _ => ([], 0)
  | r :: rs, 0, 0, _, _ => (r :: rs, 0)
  | r :: rs, 0, h + 1, left, w =>
    let a := setRowDelta r left w
    let b := setBlockDelta rs 0 h left w
    (a.1 :: b.1, a.2 + b.2)
  | r :: rs, top + 1, h, left, w =>
    let b := setBlockDelta rs top h left w
    (r :: b.1, b.2)

/-- Sum of the values of one row restricted to columns `[left, left + w)`
(the slicing semantics of `row[left : left + w]`, clipping at the ends). -/
def rowSliceSum (row : List ℕ) (left w : ℕ) : ℕ :=
  ((row.drop left).take w).sum

/-- Embedding of `mask[top : top + h, left : left + w].sum()`. -/
def blockSum (g : List (List ℕ)) (top h left w : ℕ) : ℕ :=
  (((g.drop top).take h).map fun r => rowSliceSum r left w).sum

/-- Total number of masked cells of the grid (`mask.sum()`; on a 0/1 grid
this is the set-cell count). -/
def gridSum (g : List (List ℕ)) : ℕ :=
  (g.map List.sum).sum

/-- The attempt loop of `MaskingGenerator._mask` (lines 69-91): up to `fuel`
attempts (the source uses `range(10)`), attempt `k` reads candidate
`oracle k`; a candidate is rejected unless `w < self.width and h <
self.height` and `0 < h * w - num_masked <= max_mask_patches`; an accepted
candidate's cells are written and the loop breaks as soon as `delta > 0`.
Returns the updated grid and `delta`. -/
def MaskingGenerator.maskGo (cfg : MaskingGenerator) (maxMaskPatches : ℕ)
    (oracle : ℕ → MaskCandidate) : ℕ → ℕ → List (List ℕ) → List (List ℕ) × ℕ
  | 0, _, g => (g, 0)
  | fuel + 1, k, g =>
    let c := oracle k
    if c.w < cfg.width ∧ c.h < cfg.height then
      let numMasked := blockSum g c.top c.h c.left c.w
      if 0 < c.h * c.w - numMasked ∧ c.h * c.w - numMasked ≤ maxMaskPatches then
        let r := setBlockDelta g c.top c.h c.left c.w
        if 0 < r.2 then r
        else MaskingGenerator.maskGo cfg maxMaskPatches oracle fuel (k + 1) r.1
      else MaskingGenerator.maskGo cfg maxMaskPatches oracle fuel (k + 1) g
    else MaskingGenerator.maskGo cfg maxMaskPatches oracle fuel (k + 1) g

/-- Embedding of `MaskingGenerator._mask`: ten attempts. -/
def MaskingGenerator.maskOnce (cfg : MaskingGenerator) (g : List (List ℕ))
    (maxMaskPatches : ℕ) (oracle : ℕ → MaskCandidate) : List (List ℕ) × ℕ :=
  MaskingGenerator.maskGo cfg maxMaskPatches oracle 10 0 g

/-- The outer `while mask_count < self.num_masking_patches` loop of
`MaskingGenerator.__call__` (lines 96-104), written with explicit fuel (the
termination theorem below shows any fuel of at least `num_masking_patches`
gives the same result).  Outer iteration `i` draws from the attempt stream
`oracles i`. -/
def MaskingGenerator.callGo (cfg : MaskingGenerator)
    (oracles : ℕ → ℕ → MaskCandidate) : ℕ → ℕ → List (List ℕ) → ℕ → List (List ℕ)
  | 0, _, g, _ => g
  | fuel + 1, i, g, maskCount =>
    if maskCount < cfg.numMaskingPatches then
      let maxMaskPatches := min (cfg.numMaskingPatches - maskCount) cfg.maxNumPatches
      let r := MaskingGenerator.maskOnce cfg g maxMaskPatches (oracles i)
      if r.2 = 0 then r.1
      else MaskingGenerator.callGo cfg oracles fuel (i + 1) r.1 (maskCount + r.2)
    else g

/-- The fresh grid `np.zeros(shape=self.get_shape(), dtype=np.int)`. -/
def MaskingGenerator.initGrid (cfg : MaskingGenerator) : List (List ℕ) :=
  List.replicate cfg.height (List.replicate cfg.width 0)

/-- Embedding of `MaskingGenerator.__call__` with explicit loop fuel. -/
def MaskingGenerator.call (cfg : MaskingGenerator)
    (oracles : ℕ → ℕ → MaskCandidate) (fuel : ℕ) : List (List ℕ) :=
  MaskingGenerator.callGo cfg oracles fuel 0 cfg.initGrid 0

/-- Every cell of the grid holds 0 or 1. -/
def ZeroOne (g : List (List ℕ)) : Prop :=
  ∀ row ∈ g, ∀ v ∈ row, v = 0 ∨ v = 1

/-- The grid has `h` rows, each of width `w`. -/
def GridShape (g : List (List ℕ)) (h w : ℕ) : Prop :=
  g.length = h ∧ ∀ row ∈ g, row.length = w

/-! ### Transformer.forward, at the level of tensor shapes

All claims about `Transformer.forward` concern the shapes of the tensors
flowing through it and its control flow (concatenation lengths, slicing,
the assertions, `None` misuse, the final transpose).  A tensor is therefore
embedded as its shape, a `List ℕ` of dimension sizes, and each torch
operation of the forward as the map it induces on shapes, returning
`Except String` where torch (or Python) raises.  The attention, linear and
LayerNorm modules inside the encoder/decoder layers map a well-typed input
to an output of the same `[seq, batch, d_model]` shape; the layer embeddings
below perform exactly the well-typedness checks and return the input shape. -/

/-- A tensor shape: the list of its dimension sizes. -/
abbrev Shape := List ℕ

/-- Unpacking `bs, _, _, _ = src.shape`: requires a 4-dimensional tensor. -/
def dims4 (s : Shape) : Except String (ℕ × ℕ × ℕ × ℕ) :=
  match s with
  | [a, b, c, d] => .ok (a, b, c, d)
  | _ => .error "ValueError: expected a 4-dimensional tensor"

/-- Shape of `t.flatten(2)`: dimensions from index 2 on are merged. -/
def flattenFrom2 (s : Shape) : Except String Shape :=
  match s with
  | a :: b :: c :: rest => .ok [a, b, (c :: rest).prod]
  | _ => .error "IndexError: flatten start_dim out of range"

/-- Shape of `t.flatten(1)`: dimensions from index 1 on are merged. -/
def flatten1 (s : Shape) : Except String Shape :=
  match s with
  | a :: b :: rest => .ok [a, (b :: rest).prod]
  | _ => .error "IndexError: flatten start_dim out of range"

/-- Shape of `t.permute(2, 0, 1)` on a 3-dimensional tensor. -/
def permute201 (s : Shape) : Except String Shape :=
  match s with
  | [a, b, c] => .ok [c, a, b]
  | _ => .error "RuntimeError: permute expects 3 dims"

/-- Shape of `query_embed.unsqueeze(1).repeat(1, bs, 1)` on the 2-dimensional
embedding weight `[num_queries, d_model]`. -/
def unsqueezeRepeat (s : Shape) (bs : ℕ) : Except String Shape :=
  match s with
  | [q, d] => .ok [q, bs, d]
  | _ => .error "RuntimeError: expected 2-dimensional query embedding"

/-- Shape of `torch.zeros_like(t)`. -/
def zerosLike (s : Shape) : Shape := s

/-- Shape of an elementwise addition such as `src + 0.1 * pos_embed`
(modelled as requiring equal shapes). -/
def addShapes (s t : Shape) : Except String Shape :=
  if s = t then .ok s else .error "RuntimeError: shape mismatch in addition"

/-- Shape of `torch.cat([a, b], dim=0)`. -/
def cat0 (s t : Shape) : Except String Shape :=
  match s, t with
  | a :: r1, b :: r2 =>
    if r1 = r2 then .ok ((a + b) :: r1)
    else .error "RuntimeError: cat shape mismatch"
  | _, _ => .error "RuntimeError: cat on zero-dim tensor"

/-- Shape of `torch.cat([a, b], dim=1)`. -/
def cat1 (s t : Shape) : Except String Shape :=
  match s, t with
  | a :: a1 :: r1, b :: b1 :: r2 =>
    if a = b ∧ r1 = r2 then .ok (a :: (a1 + b1) :: r1)
    else .error "RuntimeError: cat shape mismatch"
  | _, _ => .error "RuntimeError: cat needs at least 2 dims"

/-- `torch.cat([pos_embed, zeros], dim=0)` where `pos_embed` is an optional
tensor: Python raises a `TypeError` when the list element is `None` (this is
what happens on the `pass_pos_and_query=False` path, line 185). -/
def catOpt0 (s : Option Shape) (t : Shape) : Except String Shape :=
  match s with
  | none => .error "TypeError: expected Tensor as element 0 in argument 0, but got NoneType"
  | some s => cat0 s t

/-- Shape of `t[-k:]` (slicing the leading dimension from the end): for
`k = 0` Python's `t[-0:]` is the whole tensor, otherwise the result's
leading dimension is `min k d`. -/
def sliceLastDim0 (s : Shape) (k : ℕ) : Shape :=
  match s with
  | [] => []
  | d :: rest => (if k = 0 then d else min k d) :: rest

/-- `t.shape[i]`, raising `IndexError` when the tensor has fewer dims. -/
def shapeIdx (s : Shape) (i : ℕ) : Except String ℕ :=
  match s.get? i with
  | some v => .ok v
  | none => .error "IndexError: tuple index out of range"

/-- Shape of `t.transpose(1, 2)`: needs at least 3 dims. -/
def transpose12 (s : Shape) : Except String Shape :=
  match s with
  | d0 :: d1 :: d2 :: rest => .ok (d0 :: d2 :: d1 :: rest)
  | _ => .error "IndexError: transpose dimension out of range"

/-- Shape behaviour of `nn.LayerNorm(d_model)`: the input's last dimension
must equal `d_model`; the shape is preserved. -/
def layerNormShape (dModel : ℕ) (s : Shape) : Except String Shape :=
  match s.getLast? with
  | some e => if e = dModel then .ok s else .error "RuntimeError: LayerNorm normalized shape mismatch"
  | none => .error "RuntimeError: LayerNorm on zero-dim tensor"

/-- Shape behaviour of `TransformerEncoderLayer.forward` (both the pre-norm
and the post-norm variant): the input must be a 3-dimensional sequence
`[s, b, d_model]`, the positional embedding must have the input's shape (it
is added to queries and keys), the key-padding mask must be `[b, s]`; the
output has the input's shape. -/
def transformerEncoderLayerShape (dModel : ℕ) (src mask pos : Shape) :
    Except String Shape :=
  match src with
  | [s, b, e] =>
    if e ≠ dModel then .error "RuntimeError: attention embed dim mismatch"
    else if pos ≠ [s, b, e] then .error "RuntimeError: pos embed shape mismatch"
    else if mask ≠ [b, s] then .error "RuntimeError: key padding mask shape mismatch"
    else .ok [s, b, e]
  | _ => .error "RuntimeError: expected 3-dimensional input"

/-- `TransformerEncoder.forward`'s layer loop: `num_layers` applications of
the (cloned) encoder layer. -/
def encoderLayers (dModel : ℕ) (mask pos : Shape) : ℕ → Shape → Except String Shape
  | 0, out => .ok out
  | n + 1, out => do
    encoderLayers dModel mask pos n (← transformerEncoderLayerShape dModel out mask pos)

/-- Shape behaviour of `TransformerEncoder.forward`: the layer loop followed
by the optional final norm (`Transformer.__init__` creates the encoder norm
exactly when `normalize_before` is set). -/
def transformerEncoderShape (dModel numLayers : ℕ) (hasNorm : Bool)
    (src mask pos : Shape) : Except String Shape := do
  let out ← encoderLayers dModel mask pos numLayers src
  if hasNorm then layerNormShape dModel out else .ok out

/-- Whether an optional positional tensor matches the shape it is added to
(a `None` positional tensor is always acceptable: `with_pos_embed` then
returns its input unchanged). -/
def optShapeMatches (o : Option Shape) (expected : Shape) : Bool :=
  match o with
  | some p => p = expected
  | none => true

/-- Shape behaviour of `TransformerDecoderLayer.forward`: the target must be
`[q, b, d_model]` and the memory `[s, b, d_model]` with the same batch, the
optional `query_pos` must have the target's shape, the optional `pos` the
memory's shape, and the memory key-padding mask must be `[b, s]`; the output
has the target's shape. -/
def transformerDecoderLayerShape (dModel : ℕ) (tgt memory maskMem : Shape)
    (pos queryPos : Option Shape) : Except String Shape :=
  match tgt, memory with
  | [q, b, e], [s, b2, e2] =>
    if e ≠ dModel ∨ e2 ≠ dModel then .error "RuntimeError: attention embed dim mismatch"
    else if b ≠ b2 then .error "RuntimeError: batch size mismatch between target and memory"
    else if ¬ optShapeMatches queryPos [q, b, e] then
      .error "RuntimeError: query pos shape mismatch"
    else if ¬ optShapeMatches pos [s, b2, e2] then
      .error "RuntimeError: pos embed shape mismatch"
    else if maskMem ≠ [b2, s] then .error "RuntimeError: key padding mask shape mismatch"
    else .ok [q, b, e]
  | _, _ => .error "RuntimeError: expected 3-dimensional target and memory"

/-- `TransformerDecoder.forward`'s layer loop: `num_layers` applications of
the (cloned) decoder layer. -/
def decoderLayers (dModel : ℕ) (memory maskMem : Shape) (pos queryPos : Option Shape) :
    ℕ → Shape → Except String Shape
  | 0, out => .ok out
  | n + 1, out => do
    decoderLayers dModel memory maskMem pos queryPos n
      (← transformerDecoderLayerShape dModel out memory maskMem pos queryPos)

/-- Shape behaviour of `TransformerDecoder.forward` as constructed by
`Transformer.__init__` (a final `nn.LayerNorm(d_model)` is always present):
with `return_intermediate` the per-layer (normalized) outputs are stacked
into an extra leading dimension of size `num_layers` (`torch.stack` and the
`intermediate.pop()` both fail on an empty list when `num_layers = 0`);
otherwise the final (normalized) output is returned unchanged. -/
def transformerDecoderShape (dModel numLayers : ℕ) (returnIntermediate : Bool)
    (tgt memory maskMem : Shape) (pos queryPos : Option Shape) :
    Except String Shape := do
  let out ← decoderLayers dModel memory maskMem pos queryPos numLayers tgt
  let out ← layerNormShape dModel out
  if returnIntermediate then
    if numLayers = 0 then .error "IndexError: pop from empty list"
    else .ok (numLayers :: out)
  else .ok out

/-- The configuration of a `Transformer` relevant to the shape semantics of
its forward (`nhead`, `dim_feedforward`, `dropout` and `activation` do not
affect shapes). -/
structure TConfig where
  dModel : ℕ
  numEncoderLayers : ℕ
  numDecoderLayers : ℕ
  normalizeBefore : Bool
  returnIntermediateDec : Bool
  passPosAndQuery : Bool
  deriving DecidableEq

/-- The (shapes of the) inputs of `Transformer.forward`. -/
structure TInput where
  src : Shape
  mask : Shape
  queryEmbed : Shape
  posEmbed : Shape
  textMemory : Shape
  textAttentionMask : Shape
  deriving DecidableEq

/-- The result of a successful `Transformer.forward` run, keeping the final
returned shape `out` together with the intermediate shapes the claims speak
about: the fused sequence `srcFused` and its mask, the encoder output
`imgMemory`, the refined text memory slice and the index it starts at, and
the memory shape handed to the decoder. -/
structure TResult where
  out : Shape
  srcFused : Shape
  maskFused : Shape
  imgMemory : Shape
  textMemorySlice : Shape
  textStart : ℕ
  decoderMemory : Shape
  deriving DecidableEq

/-- Shape-level embedding of `Transformer.forward` (mdetr.py lines 153-213),
following the source statement by statement; each bound name shadows the
Python variable of the same point in the control flow. -/
def transformerForward (cfg : TConfig) (inp : TInput) : Except String TResult := do
  -- bs, _, _, _ = src.shape
  let (bs, _, _, _) ← dims4 inp.src
  -- src = src.flatten(2).permute(2, 0, 1)
  let src ← permute201 (← flattenFrom2 inp.src)
  -- pos_embed = pos_embed.flatten(2).permute(2, 0, 1)
  let posEmbed ← permute201 (← flattenFrom2 inp.posEmbed)
  -- query_embed = query_embed.unsqueeze(1).repeat(1, bs, 1)
  let queryEmbed ← unsqueezeRepeat inp.queryEmbed bs
  -- mask = mask.flatten(1)
  let mask ← flatten1 inp.mask
  -- if self.pass_pos_and_query: tgt = torch.zeros_like(query_embed)
  -- else: src, tgt, query_embed, pos_embed = src + 0.1 * pos_embed, query_embed, None, None
  let (src, tgt, queryEmbedOpt, posEmbedOpt) ←
    if cfg.passPosAndQuery then
      .ok (src, zerosLike queryEmbed, some queryEmbed, some posEmbed)
    else do
      .ok (← addShapes src posEmbed, queryEmbed, (none : Option Shape), (none : Option Shape))
  -- src = torch.cat([src, text_memory], dim=0)
  let src ← cat0 src inp.textMemory
  -- mask = torch.cat([mask, text_attention_mask], dim=1)
  let mask ← cat1 mask inp.textAttentionMask
  -- pos_embed = torch.cat([pos_embed, torch.zeros_like(text_memory)], dim=0)
  let posEmbedCat ← catOpt0 posEmbedOpt (zerosLike inp.textMemory)
  -- img_memory = self.encoder(src, src_key_padding_mask=mask, pos=pos_embed)
  let imgMemory ← transformerEncoderShape cfg.dModel cfg.numEncoderLayers
    cfg.normalizeBefore src mask posEmbedCat
  -- text_memory = img_memory[-len(text_memory):]
  let textLen := inp.textMemory.headD 0
  let textMemory := sliceLastDim0 imgMemory textLen
  let textStart := imgMemory.headD 0 - textMemory.headD 0
  -- assert img_memory.shape[1] == text_memory.shape[1] == tgt.shape[1]
  let a1 ← shapeIdx imgMemory 1
  let a2 ← shapeIdx textMemory 1
  let a3 ← shapeIdx tgt 1
  if a1 = a2 ∧ a2 = a3 then do
    -- src = None
    -- if self.pass_pos_and_query: tgt = torch.zeros_like(query_embed)
    -- else: src, tgt, query_embed, pos_embed = src + 0.1 * pos_embed, ... (src is None here)
    let tgt ←
      if cfg.passPosAndQuery then
        match queryEmbedOpt with
        | some qe => .ok (zerosLike qe)
        | none => .error "TypeError: zeros_like of NoneType"
      else
        .error "TypeError: unsupported operand type for +: NoneType"
    -- assert img_memory.shape[1] == text_memory.shape[1] == tgt.shape[1]
    let b3 ← shapeIdx tgt 1
    if a1 = a2 ∧ a2 = b3 then do
      -- hs = self.decoder(tgt, img_memory, memory_key_padding_mask=mask,
      --                   pos=pos_embed, query_pos=query_embed)
      let posForDecoder : Option Shape :=
        if cfg.passPosAndQuery then some posEmbedCat else none
      let hs ← transformerDecoderShape cfg.dModel cfg.numDecoderLayers
        cfg.returnIntermediateDec tgt imgMemory mask posForDecoder queryEmbedOpt
      -- return hs.transpose(1, 2)
      let out ← transpose12 hs
      .ok { out := out, srcFused := src, maskFused := mask, imgMemory := imgMemory,
            textMemorySlice := textMemory, textStart := textStart,
            decoderMemory := imgMemory }
    else .error "AssertionError"
  else .error "AssertionError"

/-! ### TransformerDecoder.forward, at the level of values

The intermediate-capture claims are about which values the decoder stack
collects, so here the loop is embedded over an abstract carrier `α` of
tensor values.  Each cloned decoder layer is a function `α → α` (its other
arguments — memory, masks, positional embeddings — are fixed throughout the
loop and are curried into the function), and the optional final `self.norm`
is an optional function. -/

/-- Result of `TransformerDecoder.forward`: a stacked list of per-layer
outputs when `return_intermediate` is set, a single tensor otherwise. -/
inductive DecoderOut (α : Type) where
  | stacked (xs : List α)
  | single (x : α)
  deriving DecidableEq

/-- The layer loop of `TransformerDecoder.forward` (lines 270-282): apply
each layer to the running `output`; when `return_intermediate` is set,
append `self.norm(output)` to the capture list (calling `self.norm` raises
a `TypeError` when no norm module was configured). -/
def decoderRunLayers {α : Type} (norm : Option (α → α)) (ri : Bool) :
    List (α → α) → α → List α → Except String (α × List α)
  | [], output, intermediate => .ok (output, intermediate)
  | layer :: rest, output, intermediate => do
    let output := layer output
    let intermediate ←
      if ri then
        match norm with
        | some n => .ok (intermediate ++ [n output])
        | none => .error "TypeError: NoneType object is not callable"
      else .ok intermediate
    decoderRunLayers norm ri rest output intermediate

/-- Embedding of `TransformerDecoder.forward` (lines 255-293): the layer
loop, then — when a final norm exists — normalize the output once more and
replace the last captured entry (`intermediate.pop()` then `append`);
finally stack the capture list, or return the single output. -/
def transformerDecoderForward {α : Type} (layers : List (α → α))
    (norm : Option (α → α)) (ri : Bool) (tgt : α) : Except String (DecoderOut α) := do
  let (output, intermediate) ← decoderRunLayers norm ri layers tgt []
  match norm with
  | some n =>
    let output := n output
    if ri then
      if intermediate.isEmpty then .error "IndexError: pop from empty list"
      else .ok (.stacked (intermediate.dropLast ++ [output]))
    else .ok (.single output)
  | none =>
    if ri then
      if intermediate.isEmpty then .error "RuntimeError: stack expects a non-empty TensorList"
      else .ok (.stacked intermediate)
    else .ok (.single output)

/-- The running outputs of a layer stack: `scanApps [l1, l2, ...] t` is
`[l1 t, l2 (l1 t), ...]` — the output of each layer in turn. -/
def scanApps {α : Type} : List (α → α) → α → List α
  | [], _ => []
  | f :: fs, a => f a :: scanApps fs (f a)

/-- The composite of a layer stack (the final `output` of the loop). -/
def applyAll {α : Type} (fs : List (α → α)) (a : α) : α :=
  fs.foldl (fun x f => f x) a

/-! ### TransformerDecoderLayer.forward, at the level of values

The normalization-ordering claims concern the order in which the decoder
layer composes its sub-modules, so the layer is embedded over an abstract
additive carrier: each sub-module created by
`TransformerDecoderLayer.__init__` (lines 372-399) becomes an abstract
function.  Note the constructor creates no `normalize_before` flag and the
module set below is its complete output. -/

/-- The sub-modules a `TransformerDecoderLayer` owns after `__init__`:
`self_attn` and `cross_attn_image` take (query, key, value). -/
structure DecoderLayerModules (α : Type) where
  self_attn : α → α → α → α
  cross_attn_image : α → α → α → α
  linear1 : α → α
  dropout : α → α
  linear2 : α → α
  norm1 : α → α
  norm3 : α → α
  norm4 : α → α
  dropout1 : α → α
  dropout3 : α → α
  dropout4 : α → α
  activation : α → α

/-- `with_pos_embed`: `tensor if pos is None else tensor + pos`. -/
def with_pos_embed {α : Type} [Add α] (tensor : α) (pos : Option α) : α :=
  match pos with
  | none => tensor
  | some p => tensor + p

/-- Embedding of `TransformerDecoderLayer.forward` (lines 404-439): self
attention, cross attention to the image memory, then the feed-forward block,
each residual branch followed by its layer norm. -/
def transformerDecoderLayerForward {α : Type} [Add α] (L : DecoderLayerModules α)
    (tgt memory : α) (pos queryPos : Option α) : α :=
  let q := with_pos_embed tgt queryPos
  let tgt2 := L.self_attn q q tgt
  let tgtA := L.norm1 (tgt + L.dropout1 tgt2)
  let tgt2b := L.cross_attn_image (with_pos_embed tgtA queryPos) (with_pos_embed memory pos) memory
  let tgtB := L.norm3 (tgtA + L.dropout3 tgt2b)
  let tgt2c := L.linear2 (L.dropout (L.activation (L.linear1 tgtB)))
  L.norm4 (tgtB + L.dropout4 tgt2c)

/-- A residual sub-block in the post-norm ordering described by the spec:
the sub-block `f` operates on the raw input and the normalization `norm` is
applied after the residual addition. -/
def postNormSublayer {α : Type} [Add α] (norm f : α → α) (x : α) : α :=
  norm (x + f x)

/-- The spec's post-norm decoder layer: three post-norm residual sub-blocks
(self-attention, image cross-attention, feed-forward), each normalization
applied after its residual addition. -/
def specPostNormDecoderLayer {α : Type} [Add α] (L : DecoderLayerModules α)
    (tgt memory : α) (pos queryPos : Option α) : α :=
  let afterSelf := postNormSublayer L.norm1
    (fun x => L.dropout1 (L.self_attn (with_pos_embed x queryPos) (with_pos_embed x queryPos) x)) tgt
  let afterCross := postNormSublayer L.norm3
    (fun x => L.dropout3 (L.cross_attn_image (with_pos_embed x queryPos) (with_pos_embed memory pos) memory)) afterSelf
  postNormSublayer L.norm4
    (fun x => L.dropout4 (L.linear2 (L.dropout (L.activation (L.linear1 x))))) afterCross

/-- A residual sub-block in the pre-norm ordering described by the spec:
the input is normalized before the sub-block and the residual addition uses
the un-normalized input. -/
def preNormSublayer {α : Type} [Add α] (norm f : α → α) (x : α) : α :=
  x + f (norm x)

/-- The decoder layer the claim's pre-norm constructor configuration would
compute, written from the spec's description of the pre-norm ordering
(normalize before each attention/feed-forward sub-block, residual addition
on the un-normalized input). -/
def specPreNormDecoderLayer {α : Type} [Add α] (L : DecoderLayerModules α)
    (tgt memory : α) (pos queryPos : Option α) : α :=
  let afterSelf := preNormSublayer L.norm1
    (fun x => L.dropout1 (L.self_attn (with_pos_embed x queryPos) (with_pos_embed x queryPos) x)) tgt
  let afterCross := preNormSublayer L.norm3
    (fun x => L.dropout3 (L.cross_attn_image (with_pos_embed x queryPos) (with_pos_embed memory pos) memory)) afterSelf
  preNormSublayer L.norm4
    (fun x => L.dropout4 (L.linear2 (L.dropout (L.activation (L.linear1 x))))) afterCross

/-- A concrete instantiation of the decoder layer modules over `ℤ`, used to
separate the pre-norm and post-norm orderings on explicit inputs. -/
def intDecoderLayerModules : DecoderLayerModules ℤ where
  self_attn := fun q _ _ => q
  cross_attn_image := fun q _ _ => q
  linear1 := id
  dropout := id
  linear2 := id
  norm1 := fun x => 2 * x
  norm3 := fun x => 2 * x
  norm4 := fun x => 2 * x
  dropout1 := id
  dropout3 := id
  dropout4 := id
  activation := id

/-! ### Concrete instances used by counterexamples and witnesses -/

/-- A small valid `Transformer` configuration: `d_model = 2`, one encoder
and one decoder layer, intermediate collection on, `pass_pos_and_query`
on (the defaults' mode and the factory's mode). -/
def exCfg : TConfig :=
  { dModel := 2, numEncoderLayers := 1, numDecoderLayers := 1,
    normalizeBefore := false, returnIntermediateDec := true, passPosAndQuery := true }

/-- `exCfg` with intermediate collection disabled. -/
def exCfgNoInter : TConfig := { exCfg with returnIntermediateDec := false }

/-- `exCfg` with `pass_pos_and_query = False` (the alternate mode). -/
def exCfgNoPos : TConfig := { exCfg with passPosAndQuery := false }

/-- A small valid input set for `Transformer.forward`: batch 1, `d_model`
2, a 1 x 2 feature map (image sequence length 2), text length 1, 2 object
queries.  The fused memory length is 2 + 1 = 3 while the decoder target
length is 2, so the two sequence lengths disagree. -/
def exInp : TInput :=
  { src := [1, 2, 1, 2], mask := [1, 1, 2], queryEmbed := [2, 2],
    posEmbed := [1, 2, 1, 2], textMemory := [1, 1, 2], textAttentionMask := [1, 1] }

/-- A small `MaskingGenerator` configuration: 2 x 2 window, 2 patches to
mask. -/
def exMG : MaskingGenerator :=
  { height := 2, width := 2, numMaskingPatches := 2, minNumPatches := 1, maxNumPatches := 2 }

/-- A draw-oracle family that always proposes the 1 x 1 block at the
origin. -/
def exOracles : ℕ → ℕ → MaskCandidate :=
  fun _ _ => { h := 1, w := 1, top := 0, left := 0 }

/-! ### Theorems: `map_pixels` dtype validation (claims C9, C10) -/

/-- Claim C9: `map_pixels` raises its input-validation error on every
integer-typed tensor, whatever its shape and values, producing no result. -/
theorem map_pixels_C9_rejects_integer_dtype (x : QTensor)
    (h : x.dtype.isInteger = true) :
    map_pixels x = .error "expected input to have type float" := by
  cases hx : x.dtype <;> simp_all [DType.isInteger, map_pixels, hx]

/-- Witness for C9: a concrete int64 tensor of shape `[2, 3]` is rejected. -/
theorem map_pixels_C9_witness :
    DType.isInteger .int64 = true ∧
      map_pixels { dtype := .int64, shape := [2, 3], data := [0, 1/2, 1] } =
        .error "expected input to have type float" :=
  ⟨rfl, map_pixels_C9_rejects_integer_dtype _ rfl⟩

/-- Claim C10: the dtype check compares against `torch.float` (float32)
specifically, so `map_pixels` errors exactly on the tensors whose dtype is
not float32 — in particular float64 and float16 tensors are rejected too. -/
theorem map_pixels_C10_rejects_non_float32 (x : QTensor) :
    map_pixels x = .error "expected input to have type float" ↔
      x.dtype ≠ DType.float32 := by
  by_cases hx : x.dtype = DType.float32 <;> simp [map_pixels, hx]

/-! ### Theorems: decoder layer normalization ordering (claim C3) -/

/-- Counterexample for C3 as stated: on a concrete integer instantiation of
the decoder layer's modules, the layer's forward does not compute the
pre-norm ordering (the claim asserts some constructor configuration makes
it normalize its input before each sub-block; the constructor creates no
such configuration and the forward is fixed). -/
theorem mdetr_C3_counterexample :
    transformerDecoderLayerForward intDecoderLayerModules 3 5 none none ≠
      specPreNormDecoderLayer intDecoderLayerModules 3 5 none none := by
  decide

/-- Claim C3 (amended): `TransformerDecoderLayer` has no pre-norm option —
its constructor takes no normalization-ordering flag, and for every choice
of its sub-modules and inputs its forward computes the post-norm ordering
(normalization applied after each residual addition); only
`TransformerEncoderLayer` offers a pre-norm variant. -/
theorem mdetr_C3_decoder_layer_post_norm {α : Type} [Add α]
    (L : DecoderLayerModules α) (tgt memory : α) (pos queryPos : Option α) :
    transformerDecoderLayerForward L tgt memory pos queryPos =
      specPostNormDecoderLayer L tgt memory pos queryPos := rfl

/-! ### Theorems: decoder intermediate capture (claim C8) -/

/-- Bind of a successful `Except` computation. -/
lemma except_bind_ok {ε α β : Type} (a : α) (f : α → Except ε β) :
    (Except.ok a >>= f) = f a := rfl

/-- Bind of a failed `Except` computation. -/
lemma except_bind_error {ε α β : Type} (e : ε) (f : α → Except ε β) :
    ((Except.error e : Except ε α) >>= f) = .error e := rfl

/-- The layer loop of the decoder, with intermediate capture on and a norm
module present, computes the running output and appends the normalized
output of each layer in turn. -/
lemma decoderRunLayers_ok {α : Type} (n : α → α) :
    ∀ (layers : List (α → α)) (t : α) (acc : List α),
      decoderRunLayers (some n) true layers t acc =
        .ok (applyAll layers t, acc ++ (scanApps layers t).map n) := by
  intro layers
  induction layers with
  | nil => intro t acc; simp [decoderRunLayers, applyAll, scanApps]
  | cons f fs ih =>
    intro t acc
    simp [decoderRunLayers, scanApps, applyAll, except_bind_ok,
      ih (f t) (acc ++ [n (f t)])]

lemma scanApps_length {α : Type} :
    ∀ (fs : List (α → α)) (a : α), (scanApps fs a).length = fs.length := by
  intro fs
  induction fs with
  | nil => intro a; simp [scanApps]
  | cons f fs ih => intro a; simp [scanApps, ih (f a)]

lemma scanApps_getLast? {α : Type} :
    ∀ (fs : List (α → α)) (a : α), fs ≠ [] →
      (scanApps fs a).getLast? = some (applyAll fs a) := by
  intro fs
  induction fs with
  | nil => intro a h; exact absurd rfl h
  | cons f fs ih =>
    intro a _
    cases fs with
    | nil => simp [scanApps, applyAll]
    | cons g gs =>
      have := ih (f a) (by simp)
      simp only [scanApps, applyAll] at this ⊢
      rw [List.getLast?_cons_cons]
      exact this

lemma dropLast_append_of_getLast? {α : Type} :
    ∀ (l : List α) (x : α), l.getLast? = some x → l.dropLast ++ [x] = l := by
  intro l
  induction l with
  | nil => intro x h; simp at h
  | cons a t ih =>
    intro x h
    cases t with
    | nil => simp at h; simp [h]
    | cons b u =>
      rw [List.getLast?_cons_cons] at h
      simpa using ih x h

/-- Claim C8: with intermediate capture enabled and a final norm module,
the decoder returns a stack of exactly `num_layers` entries — entry `k` is
the normalized output of layer `k`, and the last entry is the final
normalized output, present exactly once (it replaces the last captured
entry rather than being appended a second time). -/
theorem mdetr_C8_intermediate_capture {α : Type} (layers : List (α → α))
    (n : α → α) (tgt : α) (hl : layers ≠ []) :
    transformerDecoderForward layers (some n) true tgt =
        .ok (.stacked ((scanApps layers tgt).map n)) ∧
      ((scanApps layers tgt).map n).length = layers.length ∧
      ((scanApps layers tgt).map n).getLast? = some (n (applyAll layers tgt)) := by
  have hlast : ((scanApps layers tgt).map n).getLast? = some (n (applyAll layers tgt)) := by
    rw [List.getLast?_map, scanApps_getLast? layers tgt hl]
    rfl
  refine ⟨?_, by simp [scanApps_length], hlast⟩
  have hne : (scanApps layers tgt).map n ≠ [] := by
    intro h
    cases layers with
    | nil => exact hl rfl
    | cons f fs => simp [scanApps] at h
  have hemp : ((scanApps layers tgt).map n).isEmpty = false := by
    cases h : (scanApps layers tgt).map n with
    | nil => exact absurd h hne
    | cons a t => rfl
  simp only [transformerDecoderForward, decoderRunLayers_ok n layers tgt [],
    List.nil_append, except_bind_ok]
  simp [hemp, dropLast_append_of_getLast? _ _ hlast]

/-- Witness for C8: a two-layer stack over `ℕ` with norm `(+ 10)` applied
to target `0` captures `[11, 13]` — two entries, last `13 = 3 + 10`, once. -/
theorem mdetr_C8_witness :
    transformerDecoderForward [fun x => x + 1, fun x => x * 3]
        (some fun x => x + 10) true (0 : ℕ) = .ok (.stacked [11, 13]) ∧
      ([11, 13] : List ℕ).length = 2 ∧
      ([11, 13] : List ℕ).getLast? = some 13 := by
  have h := mdetr_C8_intermediate_capture
    [fun x => x + 1, fun x => x * 3] (fun x => x + 10) (0 : ℕ) (List.cons_ne_nil _ _)
  exact ⟨h.1, h.2.1, h.2.2⟩

/-! ### Theorems: masking generator invariants and termination (claims C5, C6) -/

lemma setRowDelta_length : ∀ (r : List ℕ) (l w : ℕ), (setRowDelta r l w).1.length = r.length := by
  intro r
  induction r with
  | nil => intro l w; simp [setRowDelta]
  | cons v vs ih =>
    intro l w
    cases l with
    | zero =>
      cases w with
      | zero => simp [setRowDelta]
      | succ w => simp [setRowDelta, ih 0 w]
    | succ l => simp [setRowDelta, ih l w]

lemma setRowDelta_sum : ∀ (r : List ℕ) (l w : ℕ),
    (setRowDelta r l w).1.sum = r.sum + (setRowDelta r l w).2 := by
  intro r
  induction r with
  | nil => intro l w; simp [setRowDelta]
  | cons v vs ih =>
    intro l w
    cases l with
    | zero =>
      cases w with
      | zero => simp [setRowDelta]
      | succ w =>
        by_cases hv : v = 0 <;>
          simp [setRowDelta, setCell, hv, ih 0 w] <;> omega
    | succ l => simp [setRowDelta, ih l w]; omega

lemma setRowDelta_zeroOne : ∀ (r : List ℕ) (l w : ℕ),
    (∀ x ∈ r, x = 0 ∨ x = 1) → ∀ x ∈ (setRowDelta r l w).1, x = 0 ∨ x = 1 := by
  intro r
  induction r with
  | nil => intro l w _ x hx; simp [setRowDelta] at hx
  | cons v vs ih =>
    intro l w hr x hx
    have hv := hr v (by simp)
    have hvs : ∀ y ∈ vs, y = 0 ∨ y = 1 := fun y hy => hr y (by simp [hy])
    cases l with
    | zero =>
      cases w with
      | zero => exact hr x hx
      | succ w =>
        simp only [setRowDelta] at hx
        rcases List.mem_cons.mp hx with h | h
        · subst h
          by_cases h0 : v = 0
          · simp [setCell, h0]
          · simpa [setCell, h0] using hv.resolve_left h0
        · exact ih 0 w hvs x h
    | succ l =>
      simp only [setRowDelta] at hx
      rcases List.mem_cons.mp hx with h | h
      · subst h; exact hv
      · exact ih l w hvs x h

lemma rowSliceSum_nil (l w : ℕ) : rowSliceSum [] l w = 0 := by
  simp [rowSliceSum]

lemma rowSliceSum_zero (r : List ℕ) (l : ℕ) : rowSliceSum r l 0 = 0 := by
  simp [rowSliceSum]

lemma rowSliceSum_cons_zero_succ (v : ℕ) (vs : List ℕ) (w : ℕ) :
    rowSliceSum (v :: vs) 0 (w + 1) = v + rowSliceSum vs 0 w := by
  simp [rowSliceSum]

lemma rowSliceSum_cons_succ (v : ℕ) (vs : List ℕ) (l w : ℕ) :
    rowSliceSum (v :: vs) (l + 1) w = rowSliceSum vs l w := by
  simp [rowSliceSum]

lemma setRowDelta_delta_le : ∀ (r : List ℕ) (l w : ℕ),
    (∀ x ∈ r, x = 0 ∨ x = 1) →
    (setRowDelta r l w).2 + rowSliceSum r l w ≤ w := by
  intro r
  induction r with
  | nil => intro l w _; simp [setRowDelta, rowSliceSum_nil]
  | cons v vs ih =>
    intro l w hr
    have hv := hr v (by simp)
    have hvs : ∀ y ∈ vs, y = 0 ∨ y = 1 := fun y hy => hr y (by simp [hy])
    cases l with
    | zero =>
      cases w with
      | zero => simp [setRowDelta, rowSliceSum_zero]
      | succ w =>
        have := ih 0 w hvs
        rcases hv with h0 | h1
        · simp [setRowDelta, rowSliceSum_cons_zero_succ, h0]; omega
        · simp [setRowDelta, rowSliceSum_cons_zero_succ, h1]; omega
    | succ l =>
      have := ih l w hvs
      simp [setRowDelta, rowSliceSum_cons_succ]
      omega

lemma blockSum_nil (t h l w : ℕ) : blockSum [] t h l w = 0 := by
  simp [blockSum]

lemma blockSum_cons_zero_zero (r : List ℕ) (rs : List (List ℕ)) (l w : ℕ) :
    blockSum (r :: rs) 0 0 l w = 0 := by
  simp [blockSum]

lemma blockSum_cons_zero_succ (r : List ℕ) (rs : List (List ℕ)) (h l w : ℕ) :
    blockSum (r :: rs) 0 (h + 1) l w = rowSliceSum r l w + blockSum rs 0 h l w := by
  simp [blockSum]

lemma blockSum_cons_succ (r : List ℕ) (rs : List (List ℕ)) (t h l w : ℕ) :
    blockSum (r :: rs) (t + 1) h l w = blockSum rs t h l w := by
  simp [blockSum]

lemma gridSum_cons (r : List ℕ) (rs : List (List ℕ)) :
    gridSum (r :: rs) = r.sum + gridSum rs := by
  simp [gridSum]

lemma zeroOne_cons {r : List ℕ} {rs : List (List ℕ)} (h : ZeroOne (r :: rs)) :
    (∀ x ∈ r, x = 0 ∨ x = 1) ∧ ZeroOne rs := by
  constructor
  · exact h r (by simp)
  · intro row hrow; exact h row (by simp [hrow])

lemma setBlockDelta_length : ∀ (g : List (List ℕ)) (t h l w : ℕ),
    (setBlockDelta g t h l w).1.length = g.length := by
  intro g
  induction g with
  | nil => intro t h l w; simp [setBlockDelta]
  | cons r rs ih =>
    intro t h l w
    cases t with
    | zero =>
      cases h with
      | zero => simp [setBlockDelta]
      | succ h => simp [setBlockDelta, ih 0 h l w]
    | succ t => simp [setBlockDelta, ih t h l w]

lemma setBlockDelta_rowLengths : ∀ (g : List (List ℕ)) (t h l w W : ℕ),
    (∀ row ∈ g, row.length = W) →
    ∀ row ∈ (setBlockDelta g t h l w).1, row.length = W := by
  intro g
  induction g with
  | nil => intro t h l w W _ row hrow; simp [setBlockDelta] at hrow
  | cons r rs ih =>
    intro t h l w W hg row hrow
    have hr := hg r (by simp)
    have hrs : ∀ row ∈ rs, row.length = W := fun row h => hg row (by simp [h])
    cases t with
    | zero =>
      cases h with
      | zero => exact hg row hrow
      | succ h =>
        simp only [setBlockDelta] at hrow
        rcases List.mem_cons.mp hrow with hx | hx
        · subst hx; rw [setRowDelta_length]; exact hr
        · exact ih 0 h l w W hrs row hx
    | succ t =>
      simp only [setBlockDelta] at hrow
      rcases List.mem_cons.mp hrow with hx | hx
      · subst hx; exact hr
      · exact ih t h l w W hrs row hx

lemma setBlockDelta_gridSum : ∀ (g : List (List ℕ)) (t h l w : ℕ),
    gridSum (setBlockDelta g t h l w).1 = gridSum g + (setBlockDelta g t h l w).2 := by
  intro g
  induction g with
  | nil => intro t h l w; simp [setBlockDelta]
  | cons r rs ih =>
    intro t h l w
    cases t with
    | zero =>
      cases h with
      | zero => simp [setBlockDelta]
      | succ h =>
        simp [setBlockDelta, gridSum_cons, setRowDelta_sum r l w, ih 0 h l w]
        omega
    | succ t =>
      simp [setBlockDelta, gridSum_cons, ih t h l w]
      omega

lemma setBlockDelta_zeroOne : ∀ (g : List (List ℕ)) (t h l w : ℕ),
    ZeroOne g → ZeroOne (setBlockDelta g t h l w).1 := by
  intro g
  induction g with
  | nil => intro t h l w _ row hrow; simp [setBlockDelta] at hrow
  | cons r rs ih =>
    intro t h l w hg
    obtain ⟨hr, hrs⟩ := zeroOne_cons hg
    cases t with
    | zero =>
      cases h with
      | zero => exact hg
      | succ h =>
        intro row hrow
        simp only [setBlockDelta] at hrow
        rcases List.mem_cons.mp hrow with hx | hx
        · subst hx; exact setRowDelta_zeroOne r l w hr
        · exact ih 0 h l w hrs row hx
    | succ t =>
      intro row hrow
      simp only [setBlockDelta] at hrow
      rcases List.mem_cons.mp hrow with hx | hx
      · subst hx; exact hr
      · exact ih t h l w hrs row hx

lemma setBlockDelta_delta_le : ∀ (g : List (List ℕ)) (t h l w : ℕ),
    ZeroOne g → (setBlockDelta g t h l w).2 + blockSum g t h l w ≤ h * w := by
  intro g
  induction g with
  | nil => intro t h l w _; simp [setBlockDelta, blockSum_nil]
  | cons r rs ih =>
    intro t h l w hg
    obtain ⟨hr, hrs⟩ := zeroOne_cons hg
    cases t with
    | zero =>
      cases h with
      | zero => simp [setBlockDelta, blockSum_cons_zero_zero]
      | succ h =>
        have h1 := setRowDelta_delta_le r l w hr
        have h2 := ih 0 h l w hrs
        simp only [setBlockDelta, blockSum_cons_zero_succ]
        have : (h + 1) * w = h * w + w := by ring
        omega
    | succ t =>
      have := ih t h l w hrs
      simp only [setBlockDelta, blockSum_cons_succ]
      omega

/-- Invariants of one `_mask` call: the grid keeps its shape, stays 0/1,
its total grows by exactly the returned `delta`, and `delta` never exceeds
`max_mask_patches` (the overlap guard `0 < h*w - num_masked <=
max_mask_patches` caps the number of newly written cells). -/
lemma maskGo_spec (cfg : MaskingGenerator) (mm : ℕ) (oracle : ℕ → MaskCandidate) :
    ∀ (fuel k : ℕ) (g : List (List ℕ)), ZeroOne g →
      (MaskingGenerator.maskGo cfg mm oracle fuel k g).1.length = g.length ∧
      (∀ W, (∀ row ∈ g, row.length = W) →
        ∀ row ∈ (MaskingGenerator.maskGo cfg mm oracle fuel k g).1, row.length = W) ∧
      ZeroOne (MaskingGenerator.maskGo cfg mm oracle fuel k g).1 ∧
      gridSum (MaskingGenerator.maskGo cfg mm oracle fuel k g).1 =
        gridSum g + (MaskingGenerator.maskGo cfg mm oracle fuel k g).2 ∧
      (MaskingGenerator.maskGo cfg mm oracle fuel k g).2 ≤ mm := by
  intro fuel
  induction fuel with
  | zero =>
    intro k g hg
    refine ⟨rfl, fun W hW => hW, hg, by simp [MaskingGenerator.maskGo], Nat.zero_le mm⟩
  | succ fuel ih =>
    intro k g hg
    set c := oracle k with hc
    by_cases h1 : c.w < cfg.width ∧ c.h < cfg.height
    · by_cases h2 : 0 < c.h * c.w - blockSum g c.top c.h c.left c.w ∧
        c.h * c.w - blockSum g c.top c.h c.left c.w ≤ mm
      · by_cases h3 : 0 < (setBlockDelta g c.top c.h c.left c.w).2
        · have hres : MaskingGenerator.maskGo cfg mm oracle (fuel + 1) k g =
              setBlockDelta g c.top c.h c.left c.w := by
            simp only [MaskingGenerator.maskGo, ← hc]
            rw [if_pos h1, if_pos h2, if_pos h3]
          rw [hres]
          have hdle := setBlockDelta_delta_le g c.top c.h c.left c.w hg
          refine ⟨setBlockDelta_length g c.top c.h c.left c.w,
            fun W hW => setBlockDelta_rowLengths g c.top c.h c.left c.w W hW,
            setBlockDelta_zeroOne g c.top c.h c.left c.w hg,
            setBlockDelta_gridSum g c.top c.h c.left c.w, ?_⟩
          omega
        · have hres : MaskingGenerator.maskGo cfg mm oracle (fuel + 1) k g =
              MaskingGenerator.maskGo cfg mm oracle fuel (k + 1)
                (setBlockDelta g c.top c.h c.left c.w).1 := by
            simp only [MaskingGenerator.maskGo, ← hc]
            rw [if_pos h1, if_pos h2, if_neg h3]
          rw [hres]
          have hz1 : ZeroOne (setBlockDelta g c.top c.h c.left c.w).1 :=
            setBlockDelta_zeroOne g c.top c.h c.left c.w hg
          obtain ⟨l1, l2, l3, l4, l5⟩ := ih (k + 1) (setBlockDelta g c.top c.h c.left c.w).1 hz1
          have hd0 : (setBlockDelta g c.top c.h c.left c.w).2 = 0 := by omega
          have hs : gridSum (setBlockDelta g c.top c.h c.left c.w).1 = gridSum g := by
            rw [setBlockDelta_gridSum g c.top c.h c.left c.w, hd0, Nat.add_zero]
          refine ⟨by rw [l1, setBlockDelta_length], ?_, l3, by rw [l4, hs], l5⟩
          intro W hW
          exact l2 W (setBlockDelta_rowLengths g c.top c.h c.left c.w W hW)
      · have hres : MaskingGenerator.maskGo cfg mm oracle (fuel + 1) k g =
            MaskingGenerator.maskGo cfg mm oracle fuel (k + 1) g := by
          simp only [MaskingGenerator.maskGo, ← hc]
          rw [if_pos h1, if_neg h2]
        rw [hres]
        exact ih (k + 1) g hg
    · have hres : MaskingGenerator.maskGo cfg mm oracle (fuel + 1) k g =
          MaskingGenerator.maskGo cfg mm oracle fuel (k + 1) g := by
        simp only [MaskingGenerator.maskGo, ← hc]
        rw [if_neg h1]
      rw [hres]
      exact ih (k + 1) g hg

/-- Invariants of the outer generation loop: starting from a 0/1 grid whose
total equals the running `mask_count` (itself at most the target), the loop
keeps the grid 0/1, keeps its shape, and never lets the total exceed
`num_masking_patches`. -/
lemma callGo_spec (cfg : MaskingGenerator) (oracles : ℕ → ℕ → MaskCandidate) :
    ∀ (fuel i : ℕ) (g : List (List ℕ)) (cnt : ℕ), ZeroOne g → gridSum g = cnt →
      cnt ≤ cfg.numMaskingPatches →
      ZeroOne (MaskingGenerator.callGo cfg oracles fuel i g cnt) ∧
      gridSum (MaskingGenerator.callGo cfg oracles fuel i g cnt) ≤ cfg.numMaskingPatches ∧
      (MaskingGenerator.callGo cfg oracles fuel i g cnt).length = g.length ∧
      (∀ W, (∀ row ∈ g, row.length = W) →
        ∀ row ∈ MaskingGenerator.callGo cfg oracles fuel i g cnt, row.length = W) := by
  intro fuel
  induction fuel with
  | zero =>
    intro i g cnt hg hsum hle
    exact ⟨hg, by simp [MaskingGenerator.callGo]; omega, rfl, fun W hW => hW⟩
  | succ fuel ih =>
    intro i g cnt hg hsum hle
    by_cases hc : cnt < cfg.numMaskingPatches
    · set mm := min (cfg.numMaskingPatches - cnt) cfg.maxNumPatches with hmm
      obtain ⟨m1, m2, m3, m4, m5⟩ :=
        maskGo_spec cfg mm (oracles i) 10 0 g hg
      by_cases hz : (MaskingGenerator.maskOnce cfg g mm (oracles i)).2 = 0
      · have hres : MaskingGenerator.callGo cfg oracles (fuel + 1) i g cnt =
            (MaskingGenerator.maskOnce cfg g mm (oracles i)).1 := by
          simp only [MaskingGenerator.callGo, ← hmm]
          rw [if_pos hc, if_pos hz]
        rw [hres]
        have hs : gridSum (MaskingGenerator.maskOnce cfg g mm (oracles i)).1 = cnt := by
          have := m4
          simp only [MaskingGenerator.maskOnce] at *
          omega
        exact ⟨m3, by omega, m1, fun W hW => m2 W hW⟩
      · have hres : MaskingGenerator.callGo cfg oracles (fuel + 1) i g cnt =
            MaskingGenerator.callGo cfg oracles fuel (i + 1)
              (MaskingGenerator.maskOnce cfg g mm (oracles i)).1
              (cnt + (MaskingGenerator.maskOnce cfg g mm (oracles i)).2) := by
          simp only [MaskingGenerator.callGo, ← hmm]
          rw [if_pos hc, if_neg hz]
        rw [hres]
        have hsum1 : gridSum (MaskingGenerator.maskOnce cfg g mm (oracles i)).1 =
            cnt + (MaskingGenerator.maskOnce cfg g mm (oracles i)).2 := by
          have := m4
          simp only [MaskingGenerator.maskOnce] at *
          omega
        have hle1 : cnt + (MaskingGenerator.maskOnce cfg g mm (oracles i)).2 ≤
            cfg.numMaskingPatches := by
          have := m5
          simp only [MaskingGenerator.maskOnce] at *
          omega
        obtain ⟨n1, n2, n3, n4⟩ := ih (i + 1)
          (MaskingGenerator.maskOnce cfg g mm (oracles i)).1
          (cnt + (MaskingGenerator.maskOnce cfg g mm (oracles i)).2) m3 hsum1 hle1
        refine ⟨n1, n2, ?_, ?_⟩
        · rw [n3]
          exact m1
        · intro W hW
          exact n4 W (m2 W hW)
    · have hres : MaskingGenerator.callGo cfg oracles (fuel + 1) i g cnt = g := by
        simp only [MaskingGenerator.callGo]
        rw [if_neg hc]
      rw [hres]
      exact ⟨hg, by omega, rfl, fun W hW => hW⟩

/-- Claim C5: for every configuration, every family of random draws and any
loop fuel, `MaskingGenerator.__call__` returns a grid of exactly the
configured `(height, width)` shape, every cell 0 or 1, with total set-cell
count at most `num_masking_patches`. -/
theorem masking_C5_invariants (cfg : MaskingGenerator)
    (oracles : ℕ → ℕ → MaskCandidate) (fuel : ℕ) :
    GridShape (MaskingGenerator.call cfg oracles fuel) cfg.height cfg.width ∧
      ZeroOne (MaskingGenerator.call cfg oracles fuel) ∧
      gridSum (MaskingGenerator.call cfg oracles fuel) ≤ cfg.numMaskingPatches := by
  have hz : ZeroOne cfg.initGrid := by
    intro row hrow v hv
    rw [List.eq_of_mem_replicate hrow] at hv
    left
    exact List.eq_of_mem_replicate hv
  have hs : gridSum cfg.initGrid = 0 := by
    simp [MaskingGenerator.initGrid, gridSum]
  obtain ⟨n1, n2, n3, n4⟩ := callGo_spec cfg oracles fuel 0 cfg.initGrid 0 hz hs
    (Nat.zero_le _)
  refine ⟨⟨?_, ?_⟩, n1, n2⟩
  · rw [MaskingGenerator.call, n3, MaskingGenerator.initGrid, List.length_replicate]
  · intro row hrow
    refine n4 cfg.width ?_ row hrow
    intro r hr
    rw [List.eq_of_mem_replicate hr, List.length_replicate]

/-- Fuel-stability of the outer generation loop: once the fuel covers the
remaining budget `num_masking_patches - mask_count`, adding more fuel does
not change the result — each iteration either returns (`delta == 0` break,
or target reached) or strictly increases `mask_count` by `delta > 0`. -/
lemma callGo_fuel_stable (cfg : MaskingGenerator) (oracles : ℕ → ℕ → MaskCandidate) :
    ∀ (f f' i : ℕ) (g : List (List ℕ)) (cnt : ℕ),
      cfg.numMaskingPatches - cnt ≤ f → f ≤ f' →
      MaskingGenerator.callGo cfg oracles f' i g cnt =
        MaskingGenerator.callGo cfg oracles f i g cnt := by
  intro f
  induction f with
  | zero =>
    intro f' i g cnt hf hff
    have hge : ¬ cnt < cfg.numMaskingPatches := by omega
    cases f' with
    | zero => rfl
    | succ e =>
      simp only [MaskingGenerator.callGo]
      rw [if_neg hge]
  | succ f ih =>
    intro f' i g cnt hf hff
    cases f' with
    | zero => omega
    | succ e =>
      by_cases hc : cnt < cfg.numMaskingPatches
      · simp only [MaskingGenerator.callGo]
        rw [if_pos hc, if_pos hc]
        set mm := min (cfg.numMaskingPatches - cnt) cfg.maxNumPatches with hmm
        by_cases hz : (MaskingGenerator.maskOnce cfg g mm (oracles i)).2 = 0
        · rw [if_pos hz, if_pos hz]
        · rw [if_neg hz, if_neg hz]
          have h1 : cfg.numMaskingPatches -
              (cnt + (MaskingGenerator.maskOnce cfg g mm (oracles i)).2) ≤ f := by
            omega
          exact ih e (i + 1) _ _ h1 (by omega)
      · simp only [MaskingGenerator.callGo]
        rw [if_neg hc, if_neg hc]

/-- Claim C6: the generation loop of `MaskingGenerator.__call__` always
terminates — within at most `num_masking_patches` outer iterations, because
every iteration either exits (the 10-attempt search placed nothing, `delta
== 0`, or the target is reached) or strictly increases the masked count.
Formally: any fuel of at least `num_masking_patches` already computes the
loop's final result, and extra fuel never changes it. -/
theorem masking_C6_termination (cfg : MaskingGenerator)
    (oracles : ℕ → ℕ → MaskCandidate) (f f' : ℕ)
    (hf : cfg.numMaskingPatches ≤ f) (hff : f ≤ f') :
    MaskingGenerator.call cfg oracles f' = MaskingGenerator.call cfg oracles f :=
  callGo_fuel_stable cfg oracles f f' 0 cfg.initGrid 0 (by omega) hff

/-- Witness for C6: the example generator (target 2) run with fuel 2 and
with fuel 7 computes the same grid. -/
theorem masking_C6_witness :
    exMG.numMaskingPatches ≤ 2 ∧ (2 : ℕ) ≤ 7 ∧
      MaskingGenerator.call exMG exOracles 7 = MaskingGenerator.call exMG exOracles 2 :=
  ⟨by decide, by decide, masking_C6_termination exMG exOracles 2 7 (by decide) (by decide)⟩

/-! ### Theorems: `Transformer.forward` shape semantics (claims C1, C2, C4, C7) -/

/-- Iterating the encoder layer preserves a shape the single layer checks
and preserves. -/
lemma encoderLayers_fixed (d : ℕ) (mask pos src : Shape)
    (hck : transformerEncoderLayerShape d src mask pos = .ok src) :
    ∀ n, encoderLayers d mask pos n src = .ok src := by
  intro n
  induction n with
  | zero => rfl
  | succ n ih => simp only [encoderLayers, hck, except_bind_ok, ih]

/-- Iterating the decoder layer preserves a shape the single layer checks
and preserves. -/
lemma decoderLayers_fixed (d : ℕ) (memory maskMem : Shape) (pos queryPos : Option Shape)
    (tgt : Shape)
    (hck : transformerDecoderLayerShape d tgt memory maskMem pos queryPos = .ok tgt) :
    ∀ n, decoderLayers d memory maskMem pos queryPos n tgt = .ok tgt := by
  intro n
  induction n with
  | zero => rfl
  | succ n ih => simp only [decoderLayers, hck, except_bind_ok, ih]

set_option maxHeartbeats 1000000 in
/-- Master evaluation of `Transformer.forward` on a well-formed input set in
the `pass_pos_and_query` mode: image feature map `[b, c, h, w]` with mask
`[b, h, w]` and positional embedding `[b, c, h, w]`, query table `[q, c]`,
text memory `[tl, b, c]` (`tl > 0`) with mask `[b, tl]`, and `d_model = c`.
The forward succeeds; the fused sequence has length `h*w + tl`, the encoder
preserves it, the text slice is the trailing `tl` rows starting at `h*w`,
the decoder memory is the whole fused encoder output, and the returned
shape is `[num_decoder_layers, b, q, c]` with intermediate collection and
`[q, c, b]` without. -/
lemma transformerForward_ok (cfg : TConfig) (b c h w tl q : ℕ)
    (htl : 0 < tl) (hppq : cfg.passPosAndQuery = true) (hd : cfg.dModel = c)
    (hdec : 0 < cfg.numDecoderLayers) :
    transformerForward cfg
      { src := [b, c, h, w], mask := [b, h, w], queryEmbed := [q, c],
        posEmbed := [b, c, h, w], textMemory := [tl, b, c],
        textAttentionMask := [b, tl] } =
      .ok { out := if cfg.returnIntermediateDec then [cfg.numDecoderLayers, b, q, c]
              else [q, c, b],
            srcFused := [h * w + tl, b, c], maskFused := [b, h * w + tl],
            imgMemory := [h * w + tl, b, c], textMemorySlice := [tl, b, c],
            textStart := h * w, decoderMemory := [h * w + tl, b, c] } := by
  obtain ⟨dm, ne, nd, nb, ri, ppq⟩ := cfg
  simp only at hppq hd hdec
  subst hppq hd
  have hck : transformerEncoderLayerShape dm [h * w + tl, b, dm] [b, h * w + tl]
      [h * w + tl, b, dm] = .ok [h * w + tl, b, dm] := by
    simp [transformerEncoderLayerShape]
  have henc := encoderLayers_fixed dm [b, h * w + tl] [h * w + tl, b, dm]
    [h * w + tl, b, dm] hck ne
  have hdck : transformerDecoderLayerShape dm [q, b, dm] [h * w + tl, b, dm]
      [b, h * w + tl] (some [h * w + tl, b, dm]) (some [q, b, dm]) = .ok [q, b, dm] := by
    simp [transformerDecoderLayerShape, optShapeMatches]
  have hdecl := decoderLayers_fixed dm [h * w + tl, b, dm] [b, h * w + tl]
    (some [h * w + tl, b, dm]) (some [q, b, dm]) [q, b, dm] hdck nd
  have hnd : nd ≠ 0 := by omega
  have htl' : tl ≠ 0 := by omega
  cases nb <;> cases ri <;>
    simp [transformerForward, dims4, flattenFrom2, permute201, unsqueezeRepeat,
      flatten1, zerosLike, addShapes, cat0, cat1, catOpt0, sliceLastDim0, shapeIdx,
      transpose12, transformerEncoderShape, transformerDecoderShape, layerNormShape,
      except_bind_ok, henc, hdecl, htl', hnd,
      Nat.min_eq_left (Nat.le_add_left tl (h * w)), Nat.add_sub_cancel]

/-- Claim C1 (code bug): on a fully valid input set, `Transformer.forward`
with `pass_pos_and_query = False` raises instead of returning decoder hidden
states — the alternate branch sets `pos_embed = None` and line 185 then
calls `torch.cat([pos_embed, ...])` on it (and line 198 would likewise
evaluate `src + 0.1 * pos_embed` after `src = None`). -/
theorem mdetr_C1_alternate_mode_raises :
    transformerForward exCfgNoPos exInp =
      .error "TypeError: expected Tensor as element 0 in argument 0, but got NoneType" := rfl

/-- Counterexample for C2 as stated: with intermediate collection disabled,
the forward on the example input (batch 1, `d_model` 2, 2 queries) returns
shape `[2, 2, 1]` — `[num_queries, d_model, batch]` — not the claimed
`[1, batch, num_queries, d_model] = [1, 1, 2, 2]`: the decoder returns the
raw 3-dimensional final output with no leading singleton axis, and
`hs.transpose(1, 2)` then swaps its last two axes. -/
theorem mdetr_C2_counterexample :
    (transformerForward exCfgNoInter exInp).map TResult.out = .ok [2, 2, 1] ∧
      ([2, 2, 1] : Shape) ≠ [1, 1, 2, 2] :=
  ⟨rfl, by decide⟩

/-- Claim C2 (amended): for all valid inputs, the returned tensor has shape
`[num_decoder_layers, batch, num_queries, d_model]` when intermediate
collection is enabled; when it is disabled the result is the 3-dimensional
`[num_queries, d_model, batch]` (no leading singleton axis is added). -/
theorem mdetr_C2_decoder_output_shape (cfg : TConfig) (inp : TInput)
    (b c h w tl q : ℕ)
    (hsrc : inp.src = [b, c, h, w]) (hmask : inp.mask = [b, h, w])
    (hq : inp.queryEmbed = [q, c]) (hpos : inp.posEmbed = [b, c, h, w])
    (htm : inp.textMemory = [tl, b, c]) (htam : inp.textAttentionMask = [b, tl])
    (htl : 0 < tl) (hppq : cfg.passPosAndQuery = true) (hd : cfg.dModel = c)
    (hdec : 0 < cfg.numDecoderLayers) :
    (transformerForward cfg inp).map TResult.out =
      .ok (if cfg.returnIntermediateDec then [cfg.numDecoderLayers, b, q, c]
        else [q, c, b]) := by
  obtain ⟨s, m, qe, pe, tm, tam⟩ := inp
  simp only at hsrc hmask hq hpos htm htam
  subst hsrc hmask hq hpos htm htam
  rw [transformerForward_ok cfg b c h w tl q htl hppq hd hdec]
  rfl

/-- Witness for C2: the example configuration (1 decoder layer,
intermediate collection on) on the example input yields `[1, 1, 2, 2]`. -/
theorem mdetr_C2_witness :
    (transformerForward exCfg exInp).map TResult.out = .ok [1, 1, 2, 2] :=
  mdetr_C2_decoder_output_shape exCfg exInp 1 2 1 2 1 2
    rfl rfl rfl rfl rfl rfl (by decide) rfl rfl (by decide)

/-- Counterexample for C4 as stated: on the example input the fused memory
length is `1*2 + 1 = 3` while the decoder target length (`num_queries`) is
2 — the two sequence lengths disagree — yet `Transformer.forward` completes
and returns a result instead of failing an assertion. -/
theorem mdetr_C4_counterexample :
    transformerForward exCfg exInp =
        .ok { out := [1, 1, 2, 2], srcFused := [3, 1, 2], maskFused := [1, 3],
              imgMemory := [3, 1, 2], textMemorySlice := [1, 1, 2], textStart := 2,
              decoderMemory := [3, 1, 2] } ∧
      (3 : ℕ) ≠ 2 :=
  ⟨rfl, by decide⟩

/-- Claim C4 (amended): the two `assert img_memory.shape[1] ==
text_memory.shape[1] == tgt.shape[1]` statements compare the batch
dimension (shape index 1), not sequence lengths; on every valid input whose
fused memory length `h*w + tl` differs from the target length `q` the
assertions pass and the forward completes with a result. -/
theorem mdetr_C4_assert_checks_batch (cfg : TConfig) (inp : TInput)
    (b c h w tl q : ℕ)
    (hsrc : inp.src = [b, c, h, w]) (hmask : inp.mask = [b, h, w])
    (hq : inp.queryEmbed = [q, c]) (hpos : inp.posEmbed = [b, c, h, w])
    (htm : inp.textMemory = [tl, b, c]) (htam : inp.textAttentionMask = [b, tl])
    (htl : 0 < tl) (hppq : cfg.passPosAndQuery = true) (hd : cfg.dModel = c)
    (hdec : 0 < cfg.numDecoderLayers)
    (hmismatch : h * w + tl ≠ q) :
    ∃ r, transformerForward cfg inp = .ok r := by
  obtain ⟨s, m, qe, pe, tm, tam⟩ := inp
  simp only at hsrc hmask hq hpos htm htam
  subst hsrc hmask hq hpos htm htam
  exact ⟨_, transformerForward_ok cfg b c h w tl q htl hppq hd hdec⟩

/-- Witness for C4: the example input (fused length 3, target length 2)
completes. -/
theorem mdetr_C4_witness :
    ∃ r, transformerForward exCfg exInp = .ok r :=
  mdetr_C4_assert_checks_batch exCfg exInp 1 2 1 2 1 2
    rfl rfl rfl rfl rfl rfl (by decide) rfl rfl (by decide) (by decide)

/-- Claim C7: on every valid input, the fused sequence length after
concatenation is `h*w + tl` (image sequence plus text length); the encoder
output keeps that length; the refined text memory is the trailing `tl`
rows, starting exactly at index `h*w`; and the decoder's memory argument is
the entire fused encoder output, of that same length. -/
theorem mdetr_C7_fused_memory_lengths (cfg : TConfig) (inp : TInput)
    (b c h w tl q : ℕ)
    (hsrc : inp.src = [b, c, h, w]) (hmask : inp.mask = [b, h, w])
    (hq : inp.queryEmbed = [q, c]) (hpos : inp.posEmbed = [b, c, h, w])
    (htm : inp.textMemory = [tl, b, c]) (htam : inp.textAttentionMask = [b, tl])
    (htl : 0 < tl) (hppq : cfg.passPosAndQuery = true) (hd : cfg.dModel = c)
    (hdec : 0 < cfg.numDecoderLayers) :
    (transformerForward cfg inp).map
        (fun r => (r.srcFused, r.imgMemory, r.textMemorySlice, r.textStart,
          r.decoderMemory)) =
      .ok ([h * w + tl, b, c], [h * w + tl, b, c], [tl, b, c], h * w,
        [h * w + tl, b, c]) := by
  obtain ⟨s, m, qe, pe, tm, tam⟩ := inp
  simp only at hsrc hmask hq hpos htm htam
  subst hsrc hmask hq hpos htm htam
  rw [transformerForward_ok cfg b c h w tl q htl hppq hd hdec]
  rfl

/-- Witness for C7: on the example input the fused length is `1*2 + 1 = 3`,
the slice is `[1, 1, 2]` starting at 2, and the decoder memory is the fused
`[3, 1, 2]`. -/
theorem mdetr_C7_witness :
    (transformerForward exCfg exInp).map
        (fun r => (r.srcFused, r.imgMemory, r.textMemorySlice, r.textStart,
          r.decoderMemory)) =
      .ok ([3, 1, 2], [3, 1, 2], [1, 1, 2], 2, [3, 1, 2]) :=
  mdetr_C7_fused_memory_lengths exCfg exInp 1 2 1 2 1 2
    rfl rfl rfl rfl rfl rfl (by decide) rfl rfl (by decide)
